import Mathlib

/-!
Verification of the OwLite settings store (`src/owlite_core/owlite_settings.py`).

The store keeps four independent file partitions (`tokens`, `devices`,
`connected`, `urls`) under one cache directory.  We embed the decoded
content of each partition file, the getters and setters of
`OwLiteSettings`, and the file-write / file-delete / warning side effects
they perform, and prove the claimed properties about them.

The domain value types (`Tokens`, `Device`, `DeviceManager`, `BaseURLs`),
the helper `read_text` (absent file ↦ `None`, otherwise the file's text)
and the tagged JSON codec (`ClassEncoder` / `ClassDecoder`) are imported
by the source from a module that is not part of the sources at hand; they
are modelled from the spec: sealed, type-tagged serializable records that
the codec round-trips.
-/

namespace OwLite

/-- Modelled from the spec: `Tokens` is an access/refresh credential pair
(the concrete class is external to the sources at hand).  A class instance
is truthy in Python, so the `tokens` setter's `if new_tokens:` test
succeeds on every present pair. -/
structure Tokens where
  access_token : String
  refresh_token : String
deriving DecidableEq, Repr

/-- A `DeviceManager`: a registered remote connection point
`{name, url}`.  Modelled from the spec (the class itself is external to
the sources at hand). -/
structure DeviceManager where
  name : String
  url : String
deriving DecidableEq, Repr

/-- Modelled from the spec: `Device` references a device manager's
name/url plus a selected device identifier within that manager. -/
structure Device where
  manager_name : String
  manager_url : String
  device_id : String
deriving DecidableEq, Repr

/-- Modelled from the spec: `BaseURLs` names the service endpoints
(front-end, main API, device-orchestration service) plus the `NEST`
endpoint address used for the synthetic managers entry. -/
structure BaseURLs where
  FRONT : String
  MAIN : String
  DOVE : String
  NEST : String
deriving DecidableEq, Repr

/-- Modelled from the spec: `BaseURLs()` has a built-in default value used
when no override file exists.  The concrete addresses are external to the
sources at hand; any fixed values serve. -/
def BaseURLs.default : BaseURLs :=
  { FRONT := "https://owlite.ai", MAIN := "https://main.owlite.ai",
    DOVE := "https://dove.owlite.ai", NEST := "https://nest.owlite.ai" }

/-- A stored value of the device-managers mapping: either the current
structured `DeviceManager` record or the oldest legacy shape, a bare
address string (`name ↦ url`). -/
inductive MgrEntry where
  | str (s : String)
  | mgr (m : DeviceManager)
deriving DecidableEq, Repr

/-- A decodable JSON value of the settings domain, as recovered by the
tagged codec: one of the four domain records or a managers mapping
(an ordered association list, mirroring Python's insertion-ordered
`dict`). -/
inductive Value where
  | tokens (t : Tokens)
  | device (d : Device)
  | manager (m : DeviceManager)
  | urls (u : BaseURLs)
  | mgrMap (m : List (String × MgrEntry))
deriving DecidableEq, Repr

/-- Returns `true` iff the decoded value is of runtime type `Device`
(the `isinstance(device, Device)` test of the `connected_device`
getter). -/
def Value.isDevice : Value → Bool
  | .device _ => true
  | _ => false

/-- Content of a present partition file: either zero-length (a present
but empty file, whose `read_text` result is the falsy `""`) or a
decodable value. -/
inductive FileContent where
  | empty
  | val (v : Value)
deriving DecidableEq, Repr

/-- The four partition files under the cache directory. -/
inductive FileId where
  | tokens
  | devices
  | connected
  | urls
deriving DecidableEq, Repr

/-- An observable side effect of an operation: a full overwrite of one
partition file, a deletion of one partition file, or a warning-level log
message. -/
inductive Event where
  | write (f : FileId) (c : FileContent)
  | delete (f : FileId)
  | warn
deriving DecidableEq, Repr

/-- The on-disk state of the store: each partition file is absent
(`none`) or holds some content.  No value is cached in memory between
calls. -/
structure Store where
  tokensFile : Option FileContent
  devicesFile : Option FileContent
  connectedFile : Option FileContent
  urlsFile : Option FileContent
deriving DecidableEq, Repr

/-- The fresh state: no partition file exists. -/
def Store.init : Store :=
  { tokensFile := none, devicesFile := none, connectedFile := none, urlsFile := none }

/-- The Python exceptions the source can raise: `KeyError` from
`dict.pop` without default, `AssertionError` from `assert`,
a JSON decode error on undecodable text, and an `AttributeError`-style
failure from using a decoded value at the wrong type. -/
inductive Err where
  | keyError
  | assertionError
  | decodeError
  | typeError
deriving DecidableEq, Repr

/-- Result of one operation: the returned value or the exception raised,
the post-state (state changes made before a raise persist), and the side
effects in order. -/
structure Outcome (α : Type) where
  res : Except Err α
  store : Store
  events : List Event
deriving Repr

/- Association-list helpers mirroring Python `dict` operations on the
insertion-ordered mapping (keys are unique in any mapping decoded from a
JSON object). -/

/-- The `k in d` test (`hasKey l k`). -/
def hasKey : List (String × α) → String → Bool
  | [], _ => false
  | p :: t, k => p.1 = k || hasKey t k

/-- The `d[k]` read (first entry with key `k`). -/
def lookupKey : List (String × α) → String → Option α
  | [], _ => none
  | p :: t, k => if p.1 = k then some p.2 else lookupKey t k

/-- The `d.pop(k, None)` removal, keeping order. -/
def eraseKey : List (String × α) → String → List (String × α)
  | [], _ => []
  | p :: t, k => if p.1 = k then eraseKey t k else p :: eraseKey t k

/-- The `d[k] = v` assignment (`setKey l k v`) — replace in place when the
key is present, append otherwise. -/
def setKey (l : List (String × α)) (k : String) (v : α) : List (String × α) :=
  if hasKey l k then l.map (fun p => if p.1 = k then (k, v) else p)
  else l ++ [(k, v)]

/-- Returns `true` iff the stored value is already the structured record. -/
def MgrEntry.isMgr : MgrEntry → Bool
  | .mgr _ => true
  | .str _ => false

/-- Rebuild one stored entry into a structured record: a bare address
string becomes `DeviceManager(name=key, url=value)`, a structured record
is kept. -/
def fixEntry (p : String × MgrEntry) : String × DeviceManager :=
  (p.1, match p.2 with
    | .str u => DeviceManager.mk p.1 u
    | .mgr d => d)

/-- The pure transform of `_backward_compatibility` (lines 66–74): drop
the legacy keys `"DEFAULT"` and `"NEST"`, and rebuild every bare-string
value into a structured `DeviceManager` keyed by its name. -/
def migrate (m : List (String × MgrEntry)) : List (String × DeviceManager) :=
  (eraseKey (eraseKey m "DEFAULT") "NEST").map fixEntry

/-- Re-encoding of a migrated mapping for persistence: every value is a
structured `DeviceManager` record. -/
def wrapMgrs (d : List (String × DeviceManager)) : List (String × MgrEntry) :=
  d.map (fun p => (p.1, MgrEntry.mgr p.2))

/-- The `tokens` getter (lines 32–43): absent file or zero-length text is
falsy ↦ `None`; otherwise return the decoded value (no type check). -/
def tokens_get (s : Store) : Outcome (Option Value) :=
  match s.tokensFile with
  | none => ⟨.ok none, s, []⟩
  | some .empty => ⟨.ok none, s, []⟩
  | some (.val v) => ⟨.ok (some v), s, []⟩

/-- The `tokens` setter (lines 45–56): a present pair is written
(encoded); `None` deletes the file with `missing_ok=True`. -/
def tokens_set (t : Option Tokens) (s : Store) : Outcome Unit :=
  match t with
  | some tk =>
      ⟨.ok (), { s with tokensFile := some (.val (.tokens tk)) },
        [.write .tokens (.val (.tokens tk))]⟩
  | none => ⟨.ok (), { s with tokensFile := none }, [.delete .tokens]⟩

/-- The `base_url` getter (lines 145–158): absent or zero-length file ↦
the built-in default; otherwise the decoded value.  The source returns
the decoded value without a type check; a decoded value of the wrong
type fails at its first field access (`self.base_url.NEST` in
`managers`), which we fold into the getter as a `typeError`. -/
def base_url_get (s : Store) : Except Err BaseURLs :=
  match s.urlsFile with
  | none => .ok BaseURLs.default
  | some .empty => .ok BaseURLs.default
  | some (.val (.urls u)) => .ok u
  | some (.val _) => .error .typeError

/-- The `base_url` setter (lines 160–171): overwrite unconditionally. -/
def base_url_set (u : BaseURLs) (s : Store) : Outcome Unit :=
  ⟨.ok (), { s with urlsFile := some (.val (.urls u)) },
    [.write .urls (.val (.urls u))]⟩

/-- The `managers` getter (lines 58–87): compute the synthetic `"NEST"`
entry from the current base URLs; absent file ↦ exactly the synthetic
entry; present file ↦ decode, migrate via `_backward_compatibility`
(which writes the migrated mapping back unconditionally, line 73),
`assert` the migrated mapping non-empty (line 85), and return the
synthetic entry merged over the migrated user mapping.  A zero-length
file is not `None`, so it reaches `json.loads("")` and raises a decode
error; a decoded value that is not a mapping fails at `.pop`. -/
def managers (s : Store) : Outcome (List (String × DeviceManager)) :=
  match base_url_get s with
  | .error e => ⟨.error e, s, []⟩
  | .ok urls =>
    let syn : DeviceManager := ⟨"NEST", urls.NEST⟩
    match s.devicesFile with
    | none => ⟨.ok [("NEST", syn)], s, []⟩
    | some .empty => ⟨.error .decodeError, s, []⟩
    | some (.val (.mgrMap mm)) =>
        let migrated := migrate mm
        let written : FileContent := .val (.mgrMap (wrapMgrs migrated))
        let s' := { s with devicesFile := some written }
        if migrated.isEmpty then
          ⟨.error .assertionError, s', [.write .devices written]⟩
        else
          ⟨.ok (("NEST", syn) :: migrated), s', [.write .devices written]⟩
    | some (.val _) => ⟨.error .typeError, s, []⟩

/-- The `add_manager` method (lines 89–98): read the current mapping, insert or
overwrite the manager under its name, `pop("NEST")` (no default — a
`KeyError` if absent), and overwrite the file with the result. -/
def add_manager (m : DeviceManager) (s : Store) : Outcome Unit :=
  let o := managers s
  match o.res with
  | .error e => ⟨.error e, o.store, o.events⟩
  | .ok dict =>
    let d1 := setKey dict m.name m
    if hasKey d1 "NEST" then
      let d2 := eraseKey d1 "NEST"
      let written : FileContent := .val (.mgrMap (wrapMgrs d2))
      ⟨.ok (), { o.store with devicesFile := some written },
        o.events ++ [.write .devices written]⟩
    else ⟨.error .keyError, o.store, o.events⟩

/-- The `remove_manager` method (lines 100–112): read the current mapping,
`pop(name, None)` (idempotent), `pop("NEST")` (no default — a `KeyError`
if absent), then persist the remainder if non-empty and delete the file
otherwise. -/
def remove_manager (name : String) (s : Store) : Outcome Unit :=
  let o := managers s
  match o.res with
  | .error e => ⟨.error e, o.store, o.events⟩
  | .ok dict =>
    let d1 := eraseKey dict name
    if hasKey d1 "NEST" then
      let d2 := eraseKey d1 "NEST"
      if d2.isEmpty then
        ⟨.ok (), { o.store with devicesFile := none },
          o.events ++ [.delete .devices]⟩
      else
        let written : FileContent := .val (.mgrMap (wrapMgrs d2))
        ⟨.ok (), { o.store with devicesFile := some written },
          o.events ++ [.write .devices written]⟩
    else ⟨.error .keyError, o.store, o.events⟩

/-- The `connected_device` getter (lines 114–129): absent or zero-length
file ↦ `None`; otherwise decode; a decoded value that is not a `Device`
triggers one warning and a purge via the setter with `None`, and the
decoded (invalid) value is still returned for this call. -/
def connected_device_get (s : Store) : Outcome (Option Value) :=
  match s.connectedFile with
  | none => ⟨.ok none, s, []⟩
  | some .empty => ⟨.ok none, s, []⟩
  | some (.val v) =>
    if v.isDevice then ⟨.ok (some v), s, []⟩
    else
      ⟨.ok (some v), { s with connectedFile := none },
        [.warn, .delete .connected]⟩

/-- The `connected_device` setter (lines 131–143): a present device is
written; `None` deletes the file with `missing_ok=True`. -/
def connected_device_set (d : Option Device) (s : Store) : Outcome Unit :=
  match d with
  | some dv =>
      ⟨.ok (), { s with connectedFile := some (.val (.device dv)) },
        [.write .connected (.val (.device dv))]⟩
  | none => ⟨.ok (), { s with connectedFile := none }, [.delete .connected]⟩

/-- The urls partition is absent, zero-length, or holds a decodable
`BaseURLs` record, so the `base_url` getter succeeds. -/
def urlsOk (s : Store) : Bool :=
  match s.urlsFile with
  | none => true
  | some .empty => true
  | some (.val (.urls _)) => true
  | some (.val _) => false

/-- The devices partition is absent or holds a decodable mapping whose
migration result is non-empty, so the `managers` getter succeeds. -/
def devicesOk (s : Store) : Bool :=
  match s.devicesFile with
  | none => true
  | some (.val (.mgrMap mm)) => !(migrate mm).isEmpty
  | _ => false

/-- A well-formed store state: both partitions the managers operations
touch are readable. -/
def WF (s : Store) : Bool := urlsOk s && devicesOk s

/-- The devices file never holds an empty mapping: the empty state is
file-absence. -/
def noEmptyDevices (s : Store) : Prop :=
  s.devicesFile ≠ some (.val (.mgrMap []))

/-- The devices file (when it holds a mapping) contains neither the key
`"NEST"` nor the legacy key `"DEFAULT"`. -/
def cleanDevices (s : Store) : Bool :=
  match s.devicesFile with
  | some (.val (.mgrMap mm)) => !hasKey mm "NEST" && !hasKey mm "DEFAULT"
  | _ => true

/-- One invocation of a store operation. -/
inductive Op where
  | mgrsGet
  | addMgr (m : DeviceManager)
  | rmMgr (n : String)
  | tokGet
  | tokSet (t : Option Tokens)
  | connGet
  | connSet (d : Option Device)
  | urlGet
  | urlSet (u : BaseURLs)
deriving DecidableEq, Repr

/-- The post-state of one operation (the state at the point of return or
of the raise — state changes made before a raise persist).  The
`base_url` getter performs no state change. -/
def applyOp (op : Op) (s : Store) : Store :=
  match op with
  | .mgrsGet => (managers s).store
  | .addMgr m => (add_manager m s).store
  | .rmMgr n => (remove_manager n s).store
  | .tokGet => (tokens_get s).store
  | .tokSet t => (tokens_set t s).store
  | .connGet => (connected_device_get s).store
  | .connSet d => (connected_device_set d s).store
  | .urlGet => s
  | .urlSet u => (base_url_set u s).store

/-- The post-state of a sequence of attempted operations in order. -/
def applySeq (ops : List Op) (s : Store) : Store :=
  ops.foldl (fun st op => applyOp op st) s

/-- A stored mapping already in the current shape: no `"DEFAULT"` or
`"NEST"` key and no bare-string value. -/
def currentShape (mm : List (String × MgrEntry)) : Bool :=
  !hasKey mm "DEFAULT" && !hasKey mm "NEST" && mm.all (fun p => p.2.isMgr)

/-- The decoded `BaseURLs` value the `base_url` getter returns on a
readable urls partition. -/
def base_url_val (s : Store) : BaseURLs :=
  match s.urlsFile with
  | some (.val (.urls u)) => u
  | _ => BaseURLs.default

theorem base_url_get_eq_ok {s : Store} (h : urlsOk s = true) :
    base_url_get s = Except.ok (base_url_val s) := by
  unfold urlsOk at h
  unfold base_url_get base_url_val
  split at h <;> simp_all

theorem base_url_get_update_devices (s : Store) (x : Option FileContent) :
    base_url_get { s with devicesFile := x } = base_url_get s := rfl

theorem base_url_val_update_devices (s : Store) (x : Option FileContent) :
    base_url_val { s with devicesFile := x } = base_url_val s := rfl

theorem hasKey_eraseKey_self (l : List (String × α)) (k : String) :
    hasKey (eraseKey l k) k = false := by
  induction l with
  | nil => rfl
  | cons p t ih =>
    by_cases h : p.1 = k
    · simpa [eraseKey, h] using ih
    · simp [eraseKey, hasKey, h, ih]

theorem hasKey_eraseKey_ne (l : List (String × α)) {k k' : String} (h : k ≠ k') :
    hasKey (eraseKey l k') k = hasKey l k := by
  induction l with
  | nil => rfl
  | cons p t ih =>
    by_cases hp : p.1 = k'
    · simp [eraseKey, hasKey, hp, Ne.symm h, ih]
    · simp [eraseKey, hasKey, hp, ih]

theorem lookupKey_eraseKey_ne (l : List (String × α)) {k k' : String} (h : k ≠ k') :
    lookupKey (eraseKey l k') k = lookupKey l k := by
  induction l with
  | nil => rfl
  | cons p t ih =>
    by_cases hp : p.1 = k'
    · simp [eraseKey, lookupKey, hp, Ne.symm h, ih]
    · simp [eraseKey, lookupKey, hp, ih]

theorem eraseKey_of_hasKey_eq_false (l : List (String × α)) (k : String)
    (h : hasKey l k = false) : eraseKey l k = l := by
  induction l with
  | nil => rfl
  | cons p t ih =>
    simp only [hasKey, Bool.or_eq_false_iff, decide_eq_false_iff_not] at h
    simp [eraseKey, h.1, ih h.2]

theorem ne_nil_of_hasKey {l : List (String × α)} {k : String}
    (h : hasKey l k = true) : l ≠ [] := by
  intro he
  subst he
  simp [hasKey] at h

theorem hasKey_append (l l' : List (String × α)) (k : String) :
    hasKey (l ++ l') k = (hasKey l k || hasKey l' k) := by
  induction l with
  | nil => simp [hasKey]
  | cons p t ih => simp [hasKey, ih, Bool.or_assoc]

theorem lookupKey_append_right (l l' : List (String × α)) (k : String)
    (h : hasKey l k = false) : lookupKey (l ++ l') k = lookupKey l' k := by
  induction l with
  | nil => rfl
  | cons p t ih =>
    simp only [hasKey, Bool.or_eq_false_iff, decide_eq_false_iff_not] at h
    simp [lookupKey, h.1, ih h.2]

theorem hasKey_map_fst (f : (String × β) → (String × γ))
    (hf : ∀ p, (f p).1 = p.1) (l : List (String × β)) (k : String) :
    hasKey (l.map f) k = hasKey l k := by
  induction l with
  | nil => rfl
  | cons p t ih => simp [hasKey, hf, ih]

theorem eraseKey_map_fst (f : (String × β) → (String × γ))
    (hf : ∀ p, (f p).1 = p.1) (l : List (String × β)) (k : String) :
    eraseKey (l.map f) k = (eraseKey l k).map f := by
  induction l with
  | nil => rfl
  | cons p t ih =>
    by_cases hp : p.1 = k
    · simp [eraseKey, hf, hp, ih]
    · simp [eraseKey, hf, hp, ih]

theorem lookupKey_replace_self (l : List (String × α)) (k : String) (v : α)
    (h : hasKey l k = true) :
    lookupKey (l.map (fun p => if p.1 = k then (k, v) else p)) k = some v := by
  induction l with
  | nil => simp [hasKey] at h
  | cons p t ih =>
    by_cases hp : p.1 = k
    · simp [lookupKey, hp]
    · have ht : hasKey t k = true := by simpa [hasKey, hp] using h
      simp [lookupKey, hp, ih ht]

theorem hasKey_replace_self (l : List (String × α)) (k : String) (v : α)
    (h : hasKey l k = true) :
    hasKey (l.map (fun p => if p.1 = k then (k, v) else p)) k = true := by
  induction l with
  | nil => simp [hasKey] at h
  | cons p t ih =>
    by_cases hp : p.1 = k
    · simp [hasKey, hp]
    · have ht : hasKey t k = true := by simpa [hasKey, hp] using h
      simp [hasKey, hp, ih ht]

theorem hasKey_replace_ne (l : List (String × α)) {k k' : String} (v : α)
    (h : k' ≠ k) :
    hasKey (l.map (fun p => if p.1 = k then (k, v) else p)) k' = hasKey l k' := by
  induction l with
  | nil => rfl
  | cons p t ih =>
    by_cases hp : p.1 = k
    · simp [hasKey, hp, Ne.symm h, ih]
    · simp [hasKey, hp, ih]

theorem bool_eq_false_of_not {b : Bool} (h : ¬b = true) : b = false := by
  simpa using h

theorem lookupKey_setKey_self (l : List (String × α)) (k : String) (v : α) :
    lookupKey (setKey l k v) k = some v := by
  unfold setKey
  by_cases h : hasKey l k = true
  · rw [if_pos h]
    exact lookupKey_replace_self l k v h
  · rw [if_neg h]
    rw [lookupKey_append_right _ _ _ (bool_eq_false_of_not h)]
    simp [lookupKey]

theorem hasKey_setKey_self (l : List (String × α)) (k : String) (v : α) :
    hasKey (setKey l k v) k = true := by
  unfold setKey
  by_cases h : hasKey l k = true
  · rw [if_pos h]
    exact hasKey_replace_self l k v h
  · rw [if_neg h]
    simp [hasKey_append, hasKey]

theorem hasKey_setKey_of_hasKey (l : List (String × α)) {k' : String}
    (k : String) (v : α) (h : hasKey l k' = true) :
    hasKey (setKey l k v) k' = true := by
  unfold setKey
  by_cases hk : hasKey l k = true
  · rw [if_pos hk]
    by_cases hkk : k' = k
    · subst hkk
      exact hasKey_replace_self l k' v hk
    · rw [hasKey_replace_ne l v hkk]
      exact h
  · rw [if_neg hk]
    simp [hasKey_append, h]

theorem hasKey_setKey_ne (l : List (String × α)) {k k' : String}
    (v : α) (h : k' ≠ k) : hasKey (setKey l k v) k' = hasKey l k' := by
  unfold setKey
  by_cases hk : hasKey l k = true
  · rw [if_pos hk]
    exact hasKey_replace_ne l v h
  · rw [if_neg hk]
    simp [hasKey_append, hasKey, h, Ne.symm h]

theorem hasKey_wrapMgrs (d : List (String × DeviceManager)) (k : String) :
    hasKey (wrapMgrs d) k = hasKey d k := by
  unfold wrapMgrs
  exact hasKey_map_fst (fun p => (p.1, MgrEntry.mgr p.2)) (fun p => rfl) d k

theorem eraseKey_wrapMgrs (d : List (String × DeviceManager)) (k : String) :
    eraseKey (wrapMgrs d) k = wrapMgrs (eraseKey d k) := by
  unfold wrapMgrs
  exact eraseKey_map_fst (fun p => (p.1, MgrEntry.mgr p.2)) (fun p => rfl) d k

theorem map_fixEntry_wrapMgrs (d : List (String × DeviceManager)) :
    (wrapMgrs d).map fixEntry = d := by
  unfold wrapMgrs
  rw [List.map_map]
  have hc : (fixEntry ∘ fun p : String × DeviceManager => (p.1, MgrEntry.mgr p.2)) = id := by
    funext p
    simp [fixEntry]
  rw [hc, List.map_id]

theorem migrate_wrapMgrs (d : List (String × DeviceManager)) :
    migrate (wrapMgrs d) = eraseKey (eraseKey d "DEFAULT") "NEST" := by
  unfold migrate
  rw [eraseKey_wrapMgrs, eraseKey_wrapMgrs, map_fixEntry_wrapMgrs]

theorem hasKey_migrate (mm : List (String × MgrEntry)) (k : String) :
    hasKey (migrate mm) k = hasKey (eraseKey (eraseKey mm "DEFAULT") "NEST") k := by
  unfold migrate
  rw [hasKey_map_fst fixEntry (fun p => rfl)]

theorem wrapMgrs_map_fixEntry_of_isMgr (l : List (String × MgrEntry))
    (h : l.all (fun p => p.2.isMgr) = true) : wrapMgrs (l.map fixEntry) = l := by
  induction l with
  | nil => rfl
  | cons p t ih =>
    simp only [List.all_cons, Bool.and_eq_true] at h
    obtain ⟨p1, p2⟩ := p
    cases p2 with
    | str u => simp [MgrEntry.isMgr] at h
    | mgr d =>
      have ih' := ih h.2
      simp only [wrapMgrs, List.map_cons] at ih' ⊢
      rw [List.map_map] at ih' ⊢
      rw [ih']
      simp [fixEntry]

theorem wrapMgrs_migrate_of_currentShape {mm : List (String × MgrEntry)}
    (h : currentShape mm = true) : wrapMgrs (migrate mm) = mm := by
  unfold currentShape at h
  simp only [Bool.and_eq_true, Bool.not_eq_true'] at h
  unfold migrate
  rw [eraseKey_of_hasKey_eq_false _ _ h.1.1, eraseKey_of_hasKey_eq_false _ _ h.1.2]
  exact wrapMgrs_map_fixEntry_of_isMgr mm h.2

theorem managers_eq_none {s : Store} (hu : urlsOk s = true)
    (hd : s.devicesFile = none) :
    managers s = ⟨.ok [("NEST", ⟨"NEST", (base_url_val s).NEST⟩)], s, []⟩ := by
  unfold managers
  rw [base_url_get_eq_ok hu, hd]

theorem managers_eq_map {s : Store} (hu : urlsOk s = true)
    {mm : List (String × MgrEntry)}
    (hd : s.devicesFile = some (FileContent.val (Value.mgrMap mm)))
    (hne : (migrate mm).isEmpty = false) :
    managers s = ⟨.ok (("NEST", ⟨"NEST", (base_url_val s).NEST⟩) :: migrate mm),
      { s with devicesFile := some (.val (.mgrMap (wrapMgrs (migrate mm)))) },
      [.write .devices (.val (.mgrMap (wrapMgrs (migrate mm))))]⟩ := by
  unfold managers
  rw [base_url_get_eq_ok hu, hd]
  simp [hne]

theorem managers_eq_assert {s : Store} (hu : urlsOk s = true)
    {mm : List (String × MgrEntry)}
    (hd : s.devicesFile = some (FileContent.val (Value.mgrMap mm)))
    (he : (migrate mm).isEmpty = true) :
    managers s = ⟨.error .assertionError,
      { s with devicesFile := some (.val (.mgrMap (wrapMgrs (migrate mm)))) },
      [.write .devices (.val (.mgrMap (wrapMgrs (migrate mm))))]⟩ := by
  unfold managers
  rw [base_url_get_eq_ok hu, hd]
  simp [he]

theorem WF_cases {s : Store} (h : WF s = true) :
    urlsOk s = true ∧ (s.devicesFile = none ∨
      ∃ mm, s.devicesFile = some (FileContent.val (Value.mgrMap mm)) ∧
        (migrate mm).isEmpty = false) := by
  unfold WF at h
  simp only [Bool.and_eq_true] at h
  refine ⟨h.1, ?_⟩
  have hd := h.2
  unfold devicesOk at hd
  rcases hdev : s.devicesFile with _ | c
  · exact Or.inl rfl
  · rw [hdev] at hd
    rcases c with _ | v
    · simp at hd
    · rcases v with t | d | m | u | mm
      · simp at hd
      · simp at hd
      · simp at hd
      · simp at hd
      · exact Or.inr ⟨mm, rfl, by simpa using hd⟩

/-- Claim C4: given the legacy on-disk mapping
`{"DEFAULT": "z", "bar": "http://y"}` with `"bar"` stored as a bare
address string, a single `managers()` call drops `"DEFAULT"`, rebuilds
`"bar"` into `DeviceManager("bar", "http://y")`, rewrites the file to
exactly the migrated mapping, and returns the migrated mapping merged
with the synthetic `"NEST"` entry. -/
theorem claim_C4_legacy_migration :
    managers { Store.init with devicesFile := some (.val (.mgrMap
        [("DEFAULT", .str "z"), ("bar", .str "http://y")])) } =
      { res := .ok [("NEST", ⟨"NEST", BaseURLs.default.NEST⟩),
                    ("bar", ⟨"bar", "http://y"⟩)],
        store := { Store.init with devicesFile := some (.val (.mgrMap
          [("bar", .mgr ⟨"bar", "http://y"⟩)])) },
        events := [.write .devices
          (.val (.mgrMap [("bar", .mgr ⟨"bar", "http://y"⟩)]))] } := by
  rfl

/-- Claim C9: for every `Tokens` value `t`, setting the tokens partition
to `t` and then reading it returns `t`; setting it to `None` and then
reading returns `None`, the tokens file no longer exists afterwards, and
the `None`-set succeeds even when the file was already absent. -/
theorem claim_C9_tokens_roundtrip (s : Store) (t : Tokens) :
    (tokens_get (tokens_set (some t) s).store).res = .ok (some (.tokens t)) ∧
    (tokens_set none s).res = .ok () ∧
    (tokens_get (tokens_set none s).store).res = .ok none ∧
    (tokens_set none s).store.tokensFile = none :=
  ⟨rfl, rfl, rfl, rfl⟩

/-- Claim C10: a present but zero-length partition file is treated like
an absent file on the tokens, connected-device and base-url read paths:
the tokens read returns `None`, the connected-device read returns `None`
with no warning and no purge, and the base-url read returns the built-in
default — none of them raises a decode error. -/
theorem claim_C10_empty_file_reads (s : Store) :
    (tokens_get { s with tokensFile := some .empty }).res = .ok none ∧
    (connected_device_get { s with connectedFile := some .empty }).res = .ok none ∧
    (connected_device_get { s with connectedFile := some .empty }).events = [] ∧
    (connected_device_get { s with connectedFile := some .empty }).store
        = { s with connectedFile := some .empty } ∧
    base_url_get { s with urlsFile := some .empty } = .ok BaseURLs.default :=
  ⟨rfl, rfl, rfl, rfl, rfl⟩

/-- Claim C5: if the connected-device file holds a value that decodes
successfully but is not of type `Device`, that read emits exactly one
warning, deletes the connected-device file, and still returns the
decoded (invalid) value; the next read returns `None`. -/
theorem claim_C5_stale_connected_device (s : Store) (v : Value)
    (h1 : s.connectedFile = some (.val v)) (h2 : v.isDevice = false) :
    (connected_device_get s).res = .ok (some v) ∧
    (connected_device_get s).events = [.warn, .delete .connected] ∧
    (connected_device_get s).store.connectedFile = none ∧
    (connected_device_get (connected_device_get s).store).res = .ok none := by
  simp [connected_device_get, h1, h2]

/-- Witness for claim C5 at a concrete stale value (a decoded `Tokens`
record sitting in the connected-device file). -/
theorem claim_C5_witness :
    ({ Store.init with connectedFile := some (.val (.tokens ⟨"a", "b"⟩)) } : Store).connectedFile
      = some (.val (.tokens ⟨"a", "b"⟩)) ∧
    (Value.tokens ⟨"a", "b"⟩).isDevice = false ∧
    (connected_device_get { Store.init with connectedFile := some (.val (.tokens ⟨"a", "b"⟩)) }).res
      = .ok (some (.tokens ⟨"a", "b"⟩)) :=
  ⟨rfl, rfl,
    (claim_C5_stale_connected_device
      { Store.init with connectedFile := some (.val (.tokens ⟨"a", "b"⟩)) }
      (.tokens ⟨"a", "b"⟩) rfl rfl).1⟩

theorem urlsOk_update_devices (s : Store) (x : Option FileContent) :
    urlsOk { s with devicesFile := x } = urlsOk s := rfl

theorem wrapMgrs_ne_nil {d : List (String × DeviceManager)} (h : d ≠ []) :
    wrapMgrs d ≠ [] := by
  cases d
  · exact absurd rfl h
  · simp [wrapMgrs]

theorem ne_nil_of_isEmpty_eq_false {l : List β} (h : l.isEmpty = false) :
    l ≠ [] := by
  cases l <;> simp_all

theorem isEmpty_false_of_hasKey {l : List (String × α)} {k : String}
    (h : hasKey l k = true) : l.isEmpty = false := by
  cases l
  · simp [hasKey] at h
  · rfl

theorem hasKey_eraseKey_false (l : List (String × α)) (k k' : String)
    (h : hasKey l k = false) : hasKey (eraseKey l k') k = false := by
  by_cases he : k = k'
  · subst he
    exact hasKey_eraseKey_self l k
  · rw [hasKey_eraseKey_ne l he]
    exact h

theorem migrate_no_NEST (mm : List (String × MgrEntry)) :
    hasKey (migrate mm) "NEST" = false := by
  rw [hasKey_migrate]
  exact hasKey_eraseKey_self _ _

theorem migrate_no_DEFAULT (mm : List (String × MgrEntry)) :
    hasKey (migrate mm) "DEFAULT" = false := by
  rw [hasKey_migrate]
  rw [hasKey_eraseKey_ne _ (by decide : ("DEFAULT" : String) ≠ "NEST")]
  exact hasKey_eraseKey_self _ _

theorem noEmptyDevices_of_WF {s : Store} (h : WF s = true) :
    noEmptyDevices s := by
  obtain ⟨hu, hcase⟩ := WF_cases h
  rcases hcase with hdev | ⟨mm, hdev, hne⟩
  · unfold noEmptyDevices
    rw [hdev]
    simp
  · have hmm : mm ≠ [] := by
      intro he
      subst he
      simp [migrate, eraseKey] at hne
    unfold noEmptyDevices
    rw [hdev]
    simp [hmm]

theorem noEmptyDevices_of_eq {s s' : Store} (h : s'.devicesFile = s.devicesFile)
    (hs : noEmptyDevices s) : noEmptyDevices s' := by
  unfold noEmptyDevices at hs ⊢
  rw [h]
  exact hs

theorem noEmptyDevices_none (s : Store) :
    noEmptyDevices { s with devicesFile := none } := by
  unfold noEmptyDevices
  simp

theorem noEmptyDevices_update {s : Store} {d : List (String × DeviceManager)}
    (h : d ≠ []) :
    noEmptyDevices { s with devicesFile := some (.val (.mgrMap (wrapMgrs d))) } := by
  unfold noEmptyDevices
  intro hEq
  simp only [Store.devicesFile, Option.some.injEq, FileContent.val.injEq,
    Value.mgrMap.injEq] at hEq
  exact wrapMgrs_ne_nil h hEq

theorem tokens_get_store (s : Store) : (tokens_get s).store = s := by
  unfold tokens_get
  split <;> rfl

theorem add_manager_eq (s : Store) (m : DeviceManager)
    {dict : List (String × DeviceManager)} {st : Store} {ev : List Event}
    (hm : managers s = ⟨.ok dict, st, ev⟩)
    (hk : hasKey dict "NEST" = true) :
    add_manager m s = ⟨.ok (),
      { st with devicesFile := some (.val (.mgrMap (wrapMgrs (eraseKey (setKey dict m.name m) "NEST")))) },
      ev ++ [.write .devices (.val (.mgrMap (wrapMgrs (eraseKey (setKey dict m.name m) "NEST"))))]⟩ := by
  have hk1 : hasKey (setKey dict m.name m) "NEST" = true :=
    hasKey_setKey_of_hasKey dict m.name m hk
  unfold add_manager
  rw [hm]
  simp only [hk1]
  split
  · rfl
  · rename_i hfalse
    exact absurd trivial hfalse

theorem remove_manager_store_of (s : Store) (name : String)
    {dict : List (String × DeviceManager)} {st : Store} {ev : List Event}
    (hm : managers s = ⟨.ok dict, st, ev⟩) :
    (remove_manager name s).store = st ∨
    (remove_manager name s).store = { st with devicesFile := none } ∨
    (eraseKey (eraseKey dict name) "NEST" ≠ [] ∧ (remove_manager name s).store
      = { st with devicesFile := some (.val (.mgrMap (wrapMgrs (eraseKey (eraseKey dict name) "NEST")))) }) := by
  unfold remove_manager
  rw [hm]
  simp only []
  split
  · split
    · right
      left
      rfl
    · right
      right
      refine ⟨?_, rfl⟩
      rename_i hne
      exact ne_nil_of_isEmpty_eq_false (by simpa using hne)
  · left
    rfl

theorem remove_manager_ok_of (s : Store) (name : String)
    {dict : List (String × DeviceManager)} {st : Store} {ev : List Event}
    (hm : managers s = ⟨.ok dict, st, ev⟩)
    (hk : hasKey dict "NEST" = true) (hno : name ≠ "NEST") :
    (remove_manager name s).res = .ok () := by
  have hk2 : hasKey (eraseKey dict name) "NEST" = true := by
    rw [hasKey_eraseKey_ne _ (Ne.symm hno)]
    exact hk
  unfold remove_manager
  rw [hm]
  simp only [hk2]
  split
  · split <;> rfl
  · rename_i hfalse
    exact absurd trivial hfalse

theorem urlsOk_of_base_url_ok {s : Store} {u : BaseURLs}
    (h : base_url_get s = .ok u) : urlsOk s = true := by
  unfold base_url_get at h
  unfold urlsOk
  split at h <;> simp_all

theorem managers_eq_err {s : Store} {e : Err}
    (hb : base_url_get s = .error e) : managers s = ⟨.error e, s, []⟩ := by
  unfold managers
  rw [hb]

/-- The store after the write-back a migrating read performs. -/
def wbStore (s : Store) (mm : List (String × MgrEntry)) : Store :=
  { s with devicesFile := some (.val (.mgrMap (wrapMgrs (migrate mm)))) }

theorem managers_shape (s : Store) :
    (∃ e, managers s = ⟨.error e, s, []⟩) ∨
    (managers s = ⟨.ok [("NEST", ⟨"NEST", (base_url_val s).NEST⟩)], s, []⟩) ∨
    (∃ mm, s.devicesFile = some (.val (.mgrMap mm)) ∧
      ((migrate mm).isEmpty = true ∧
          managers s = ⟨.error .assertionError, wbStore s mm,
            [.write .devices (.val (.mgrMap (wrapMgrs (migrate mm))))]⟩ ∨
        (migrate mm).isEmpty = false ∧
          managers s = ⟨.ok (("NEST", ⟨"NEST", (base_url_val s).NEST⟩) :: migrate mm),
            wbStore s mm,
            [.write .devices (.val (.mgrMap (wrapMgrs (migrate mm))))]⟩)) := by
  cases hub : base_url_get s with
  | error e => exact Or.inl ⟨e, managers_eq_err hub⟩
  | ok u =>
      have hu : urlsOk s = true := urlsOk_of_base_url_ok hub
      rcases hdev : s.devicesFile with _ | c
      · exact Or.inr (Or.inl (managers_eq_none hu hdev))
      · rcases c with _ | v
        · exact Or.inl ⟨.decodeError, by unfold managers; rw [hub, hdev]⟩
        · rcases v with t | d | mgr1 | u2 | mm
          · exact Or.inl ⟨.typeError, by unfold managers; rw [hub, hdev]⟩
          · exact Or.inl ⟨.typeError, by unfold managers; rw [hub, hdev]⟩
          · exact Or.inl ⟨.typeError, by unfold managers; rw [hub, hdev]⟩
          · exact Or.inl ⟨.typeError, by unfold managers; rw [hub, hdev]⟩
          · refine Or.inr (Or.inr ⟨mm, rfl, ?_⟩)
            cases hie : (migrate mm).isEmpty with
            | true => exact Or.inl ⟨rfl, managers_eq_assert hu hdev hie⟩
            | false => exact Or.inr ⟨rfl, managers_eq_map hu hdev hie⟩

theorem cleanDevices_of_eq {s s' : Store} (h : s'.devicesFile = s.devicesFile)
    (hs : cleanDevices s = true) : cleanDevices s' = true := by
  unfold cleanDevices at hs ⊢
  rw [h]
  exact hs

theorem cleanDevices_none (s : Store) :
    cleanDevices { s with devicesFile := none } = true := rfl

theorem cleanDevices_update_wrap (s : Store) {d : List (String × DeviceManager)}
    (hn : hasKey d "NEST" = false) (hd : hasKey d "DEFAULT" = false) :
    cleanDevices { s with devicesFile := some (.val (.mgrMap (wrapMgrs d))) } = true := by
  show (!hasKey (wrapMgrs d) "NEST" && !hasKey (wrapMgrs d) "DEFAULT") = true
  rw [hasKey_wrapMgrs, hasKey_wrapMgrs, hn, hd]
  rfl

theorem cleanDevices_wbStore (s : Store) (mm : List (String × MgrEntry)) :
    cleanDevices (wbStore s mm) = true :=
  cleanDevices_update_wrap s (migrate_no_NEST mm) (migrate_no_DEFAULT mm)

theorem dict_no_DEFAULT_nil (x : DeviceManager) :
    hasKey [("NEST", x)] "DEFAULT" = false := by
  simp [hasKey]

theorem dict_no_DEFAULT_cons (x : DeviceManager) (mm : List (String × MgrEntry)) :
    hasKey (("NEST", x) :: migrate mm) "DEFAULT" = false := by
  simp [hasKey, migrate_no_DEFAULT mm]

theorem cleanDevices_managers (s : Store) (h1 : cleanDevices s = true) :
    cleanDevices (managers s).store = true := by
  rcases managers_shape s with ⟨e, hm⟩ | hm | ⟨mm, hdev, ⟨hie, hm⟩ | ⟨hie, hm⟩⟩
  · rw [hm]
    exact h1
  · rw [hm]
    exact h1
  · rw [hm]
    exact cleanDevices_wbStore s mm
  · rw [hm]
    exact cleanDevices_wbStore s mm

theorem cleanDevices_add (s : Store) (m : DeviceManager)
    (h1 : cleanDevices s = true) (hname : m.name ≠ "DEFAULT") :
    cleanDevices (add_manager m s).store = true := by
  have key : ∀ dict : List (String × DeviceManager),
      hasKey dict "DEFAULT" = false →
      hasKey (eraseKey (setKey dict m.name m) "NEST") "NEST" = false ∧
      hasKey (eraseKey (setKey dict m.name m) "NEST") "DEFAULT" = false := by
    intro dict hd
    refine ⟨hasKey_eraseKey_self _ _, ?_⟩
    apply hasKey_eraseKey_false
    rw [hasKey_setKey_ne _ _ (Ne.symm hname)]
    exact hd
  rcases managers_shape s with ⟨e, hm⟩ | hm | ⟨mm, hdev, ⟨hie, hm⟩ | ⟨hie, hm⟩⟩
  · unfold add_manager
    rw [hm]
    exact h1
  · have hk : hasKey [("NEST", (⟨"NEST", (base_url_val s).NEST⟩ : DeviceManager))] "NEST" = true := by
      simp [hasKey]
    rw [add_manager_eq s m hm hk]
    obtain ⟨hn, hd⟩ := key _ (dict_no_DEFAULT_nil _)
    exact cleanDevices_update_wrap s hn hd
  · unfold add_manager
    rw [hm]
    exact cleanDevices_wbStore s mm
  · have hk : hasKey (("NEST", (⟨"NEST", (base_url_val s).NEST⟩ : DeviceManager)) :: migrate mm) "NEST" = true := by
      simp [hasKey]
    rw [add_manager_eq s m hm hk]
    obtain ⟨hn, hd⟩ := key _ (dict_no_DEFAULT_cons _ mm)
    exact cleanDevices_update_wrap (wbStore s mm) hn hd

theorem cleanDevices_remove (s : Store) (n : String)
    (h1 : cleanDevices s = true) :
    cleanDevices (remove_manager n s).store = true := by
  have key : ∀ dict : List (String × DeviceManager),
      hasKey dict "DEFAULT" = false →
      hasKey (eraseKey (eraseKey dict n) "NEST") "NEST" = false ∧
      hasKey (eraseKey (eraseKey dict n) "NEST") "DEFAULT" = false := by
    intro dict hd
    exact ⟨hasKey_eraseKey_self _ _,
      hasKey_eraseKey_false _ _ _ (hasKey_eraseKey_false _ _ _ hd)⟩
  rcases managers_shape s with ⟨e, hm⟩ | hm | ⟨mm, hdev, ⟨hie, hm⟩ | ⟨hie, hm⟩⟩
  · unfold remove_manager
    rw [hm]
    exact h1
  · rcases remove_manager_store_of s n hm with h | h | ⟨hd2, h⟩
    · rw [h]
      exact h1
    · rw [h]
      exact cleanDevices_none s
    · rw [h]
      obtain ⟨hn, hd⟩ := key _ (dict_no_DEFAULT_nil _)
      exact cleanDevices_update_wrap s hn hd
  · unfold remove_manager
    rw [hm]
    exact cleanDevices_wbStore s mm
  · rcases remove_manager_store_of s n hm with h | h | ⟨hd2, h⟩
    · rw [h]
      exact cleanDevices_wbStore s mm
    · rw [h]
      exact cleanDevices_none (wbStore s mm)
    · rw [h]
      obtain ⟨hn, hd⟩ := key _ (dict_no_DEFAULT_cons _ mm)
      exact cleanDevices_update_wrap (wbStore s mm) hn hd

theorem cleanDevices_applyOp (s : Store) (op : Op)
    (h1 : cleanDevices s = true)
    (h2 : ∀ m : DeviceManager, op = Op.addMgr m → m.name ≠ "DEFAULT") :
    cleanDevices (applyOp op s) = true := by
  cases op with
  | mgrsGet =>
      simp only [applyOp]
      exact cleanDevices_managers s h1
  | addMgr m =>
      simp only [applyOp]
      exact cleanDevices_add s m h1 (h2 m rfl)
  | rmMgr n =>
      simp only [applyOp]
      exact cleanDevices_remove s n h1
  | tokGet =>
      simp only [applyOp]
      rw [tokens_get_store]
      exact h1
  | tokSet t =>
      cases t with
      | none => exact cleanDevices_of_eq rfl h1
      | some tk => exact cleanDevices_of_eq rfl h1
  | connGet =>
      simp only [applyOp]
      unfold connected_device_get
      split
      · exact h1
      · exact h1
      · split
        · exact h1
        · exact cleanDevices_of_eq rfl h1
  | connSet d =>
      cases d with
      | none => exact cleanDevices_of_eq rfl h1
      | some dv => exact cleanDevices_of_eq rfl h1
  | urlGet => exact h1
  | urlSet u => exact cleanDevices_of_eq rfl h1

/-- Claim C1 counterexample: `remove_manager("NEST")` raises `KeyError`
even from the fresh state — after the idempotent drop of the argument
name, the unconditional `pop("NEST")` finds no `"NEST"` key left. -/
theorem claim_C1_counterexample :
    (remove_manager "NEST" Store.init).res = .error .keyError := by
  rfl

/-- Claim C1 (amended): for every name other than `"NEST"`, from any
well-formed state, `remove_manager(name)` raises no error — the drop of
`name` from the current mapping is idempotent, with no error when `name`
is absent; for the excluded case name = `"NEST"` the call raises
`KeyError`. -/
theorem claim_C1_remove_manager_no_raise (s : Store) (name : String)
    (h1 : name ≠ "NEST") (h2 : WF s = true) :
    (remove_manager name s).res = .ok () := by
  obtain ⟨hu, hcase⟩ := WF_cases h2
  rcases hcase with hdev | ⟨mm, hdev, hne⟩
  · exact remove_manager_ok_of s name (managers_eq_none hu hdev)
      (by simp [hasKey]) h1
  · exact remove_manager_ok_of s name (managers_eq_map hu hdev hne)
      (by simp [hasKey]) h1

/-- Witness for claim C1 (amended) at the absent name `"bar"` in the
fresh state. -/
theorem claim_C1_witness :
    ("bar" : String) ≠ "NEST" ∧ WF Store.init = true ∧
    (remove_manager "bar" Store.init).res = .ok () :=
  ⟨by decide, rfl,
    claim_C1_remove_manager_no_raise Store.init "bar" (by decide) rfl⟩

/-- Claim C3 counterexample: with the devices file already in the current
shape `{"bar": DeviceManager("bar","http://y")}` — no `"DEFAULT"` or
`"NEST"` key, no bare-string value — a `managers()` read still rewrites
the file (one write event, of the unchanged contents), so a read does not
rewrite the file only when migration altered the stored mapping. -/
theorem claim_C3_counterexample :
    currentShape [("bar", MgrEntry.mgr ⟨"bar", "http://y"⟩)] = true ∧
    (managers { Store.init with devicesFile := some (.val (.mgrMap [("bar", .mgr ⟨"bar", "http://y"⟩)])) }).events
      = [.write .devices (.val (.mgrMap [("bar", .mgr ⟨"bar", "http://y"⟩)]))] :=
  ⟨rfl, rfl⟩

/-- Claim C3 (amended): a `managers()` read of a present file performs a
write-back on every read, but when the stored mapping is already in the
current shape the written contents equal the stored ones, so the file's
contents are left unchanged. -/
theorem claim_C3_current_shape_contents_unchanged (s : Store)
    (mm : List (String × MgrEntry))
    (hd : s.devicesFile = some (.val (.mgrMap mm)))
    (hc : currentShape mm = true) :
    (managers s).store.devicesFile = s.devicesFile := by
  have hw : wrapMgrs (migrate mm) = mm := wrapMgrs_migrate_of_currentShape hc
  cases hub : base_url_get s with
  | error e =>
      unfold managers
      rw [hub]
  | ok u =>
      unfold managers
      rw [hub, hd]
      simp only []
      split <;> simp [hw, hd]

/-- Witness for claim C3 (amended) at the concrete current-shape store
of the counterexample. -/
theorem claim_C3_witness :
    currentShape [("bar", MgrEntry.mgr ⟨"bar", "http://y"⟩)] = true ∧
    (managers { Store.init with devicesFile := some (.val (.mgrMap [("bar", MgrEntry.mgr ⟨"bar", "http://y"⟩)])) }).store.devicesFile
      = ({ Store.init with devicesFile := some (.val (.mgrMap [("bar", MgrEntry.mgr ⟨"bar", "http://y"⟩)])) } : Store).devicesFile :=
  ⟨rfl,
    claim_C3_current_shape_contents_unchanged
      { Store.init with devicesFile := some (.val (.mgrMap [("bar", MgrEntry.mgr ⟨"bar", "http://y"⟩)])) }
      [("bar", MgrEntry.mgr ⟨"bar", "http://y"⟩)] rfl rfl⟩

/-- Claim C6: for every stored managers mapping whose migrated result is
empty, the `managers()` read raises (the `assert`) instead of returning a
view whose user-defined entry set is empty. -/
theorem claim_C6_empty_migration_raises (s : Store)
    (mm : List (String × MgrEntry))
    (h1 : s.devicesFile = some (.val (.mgrMap mm)))
    (h2 : migrate mm = [])
    (h3 : urlsOk s = true) :
    (managers s).res = .error .assertionError := by
  rw [managers_eq_assert h3 h1 (by simp [h2])]

/-- Witness for claim C6 at the concrete stored mapping
`{"DEFAULT": "z"}`, which migrates to the empty mapping. -/
theorem claim_C6_witness :
    migrate [("DEFAULT", MgrEntry.str "z")] = [] ∧
    (managers { Store.init with devicesFile := some (.val (.mgrMap [("DEFAULT", MgrEntry.str "z")])) }).res
      = .error .assertionError :=
  ⟨by decide,
    claim_C6_empty_migration_raises _ _ rfl (by decide) rfl⟩

/-- Claim C2 counterexample: a `managers()` read of the stored mapping
`{"DEFAULT": "z"}` migrates it to the empty mapping and, because the
write-back precedes the non-emptiness `assert`, writes the empty-object
file before raising — so after this (failing) operation the devices file
holds an empty mapping. -/
theorem claim_C2_counterexample :
    (managers { Store.init with devicesFile := some (.val (.mgrMap [("DEFAULT", MgrEntry.str "z")])) }).store.devicesFile
      = some (.val (.mgrMap [])) := by
  rfl

/-- Claim C2 (amended): from a well-formed state, the devices file holds
no empty mapping after any single store operation, provided `add_manager`
is not invoked with a manager named `"NEST"`; the two code paths excluded
here (a `managers` read whose migration empties a present mapping, which
writes the empty object before raising, and `add_manager` of a
`"NEST"`-named manager onto an otherwise empty store) do leave an
empty-object file. -/
theorem claim_C2_no_empty_devices_file (s : Store) (op : Op)
    (h1 : WF s = true)
    (h2 : ∀ m : DeviceManager, op = Op.addMgr m → m.name ≠ "NEST") :
    noEmptyDevices (applyOp op s) := by
  obtain ⟨hu, hcase⟩ := WF_cases h1
  have hself : noEmptyDevices s := noEmptyDevices_of_WF h1
  cases op with
  | mgrsGet =>
      rcases hcase with hdev | ⟨mm, hdev, hne⟩
      · simp only [applyOp]
        rw [managers_eq_none hu hdev]
        exact hself
      · simp only [applyOp]
        rw [managers_eq_map hu hdev hne]
        exact noEmptyDevices_update (ne_nil_of_isEmpty_eq_false hne)
  | addMgr m =>
      have hname : m.name ≠ "NEST" := h2 m rfl
      have hkey : ∀ dict : List (String × DeviceManager),
          eraseKey (setKey dict m.name m) "NEST" ≠ [] := by
        intro dict
        apply ne_nil_of_hasKey (k := m.name)
        rw [hasKey_eraseKey_ne _ hname]
        exact hasKey_setKey_self _ _ _
      rcases hcase with hdev | ⟨mm, hdev, hne⟩
      · simp only [applyOp]
        rw [add_manager_eq s m (managers_eq_none hu hdev) (by simp [hasKey])]
        exact noEmptyDevices_update (hkey _)
      · simp only [applyOp]
        rw [add_manager_eq s m (managers_eq_map hu hdev hne) (by simp [hasKey])]
        exact noEmptyDevices_update (hkey _)
  | rmMgr n =>
      have step : ∀ (dict : List (String × DeviceManager)) (st : Store) (ev : List Event),
          managers s = ⟨.ok dict, st, ev⟩ → noEmptyDevices st →
          noEmptyDevices (applyOp (Op.rmMgr n) s) := by
        intro dict st ev hm hst
        rcases remove_manager_store_of s n hm with h | h | ⟨hd2, h⟩
        · simp only [applyOp]
          rw [h]
          exact hst
        · simp only [applyOp]
          rw [h]
          exact noEmptyDevices_none st
        · simp only [applyOp]
          rw [h]
          exact noEmptyDevices_update hd2
      rcases hcase with hdev | ⟨mm, hdev, hne⟩
      · exact step _ _ _ (managers_eq_none hu hdev) hself
      · exact step _ _ _ (managers_eq_map hu hdev hne)
          (noEmptyDevices_update (ne_nil_of_isEmpty_eq_false hne))
  | tokGet =>
      simp only [applyOp]
      rw [tokens_get_store]
      exact hself
  | tokSet t =>
      cases t with
      | none => exact noEmptyDevices_of_eq rfl hself
      | some tk => exact noEmptyDevices_of_eq rfl hself
  | connGet =>
      simp only [applyOp]
      unfold connected_device_get
      split
      · exact hself
      · exact hself
      · split
        · exact hself
        · exact noEmptyDevices_of_eq rfl hself
  | connSet d =>
      cases d with
      | none => exact noEmptyDevices_of_eq rfl hself
      | some dv => exact noEmptyDevices_of_eq rfl hself
  | urlGet => exact hself
  | urlSet u => exact noEmptyDevices_of_eq rfl hself

/-- Witness for claim C2 (amended): adding the manager `"foo"` to the
fresh store leaves no empty mapping on disk. -/
theorem claim_C2_witness :
    WF Store.init = true ∧
    noEmptyDevices (applyOp (Op.addMgr ⟨"foo", "http://x"⟩) Store.init) :=
  ⟨rfl, claim_C2_no_empty_devices_file Store.init (Op.addMgr ⟨"foo", "http://x"⟩) rfl
    (fun m hm => by cases hm; decide)⟩

/-- Claim C7 counterexample: `add_manager(DeviceManager("DEFAULT","u"))`
writes the key `"DEFAULT"` to the devices file — `add_manager` strips
only `"NEST"` before writing, so a manager literally named `"DEFAULT"`
lands on disk. -/
theorem claim_C7_counterexample :
    cleanDevices (applySeq [Op.addMgr ⟨"DEFAULT", "u"⟩] Store.init) = false := by
  rfl

/-- Claim C7 (amended): starting from a state whose devices file contains
neither `"NEST"` nor `"DEFAULT"`, after every sequence of store
operations in which `add_manager` is never given a manager named
`"DEFAULT"`, the devices file still contains neither key — migration
strips both on read and `add_manager` / `remove_manager` strip `"NEST"`
before writing, but nothing stops `add_manager` from persisting a
user-supplied `"DEFAULT"` name. -/
theorem claim_C7_disk_free_of_NEST_DEFAULT (ops : List Op) (s : Store)
    (h1 : cleanDevices s = true)
    (h2 : ∀ m : DeviceManager, Op.addMgr m ∈ ops → m.name ≠ "DEFAULT") :
    cleanDevices (applySeq ops s) = true := by
  induction ops generalizing s with
  | nil => exact h1
  | cons op rest ih =>
      have hstep : cleanDevices (applyOp op s) = true :=
        cleanDevices_applyOp s op h1
          (fun m hm => h2 m (by rw [← hm]; exact List.mem_cons_self op rest))
      exact ih (applyOp op s) hstep (fun m hm => h2 m (List.mem_cons_of_mem op hm))

/-- Witness for claim C7 (amended) on a concrete three-operation
sequence from the fresh store. -/
theorem claim_C7_witness :
    cleanDevices Store.init = true ∧
    cleanDevices (applySeq [Op.addMgr ⟨"foo", "http://x"⟩, Op.mgrsGet, Op.rmMgr "foo"] Store.init) = true :=
  ⟨rfl,
    claim_C7_disk_free_of_NEST_DEFAULT _ Store.init rfl (fun m hm => by
      simp only [List.mem_cons, List.not_mem_nil, or_false] at hm
      rcases hm with h | h | h
      · injection h with h1
        subst h1
        decide
      · exact absurd h (by simp)
      · exact absurd h (by simp))⟩

theorem add_manager_spec_aux (s0 : Store) (m : DeviceManager)
    {dict : List (String × DeviceManager)} {st : Store} {ev : List Event}
    (hm : managers s0 = ⟨.ok dict, st, ev⟩)
    (hk : hasKey dict "NEST" = true)
    (hust : urlsOk st = true)
    (hbst : base_url_val st = base_url_val s0)
    (h2 : m.name ≠ "NEST") (h3 : m.name ≠ "DEFAULT") :
    (add_manager m s0).res = .ok () ∧
    (∃ d, (managers (add_manager m s0).store).res = .ok d ∧
      lookupKey d m.name = some m ∧
      lookupKey d "NEST" = some ⟨"NEST", (base_url_val s0).NEST⟩) ∧
    (∃ L, (add_manager m s0).store.devicesFile = some (.val (.mgrMap L)) ∧
      hasKey L m.name = true ∧ hasKey L "NEST" = false) := by
  have hadd := add_manager_eq s0 m hm hk
  have hA : hasKey (eraseKey (setKey dict m.name m) "NEST") m.name = true := by
    rw [hasKey_eraseKey_ne _ h2]
    exact hasKey_setKey_self _ _ _
  have hB : hasKey (eraseKey (setKey dict m.name m) "NEST") "NEST" = false :=
    hasKey_eraseKey_self _ _
  have hst : (add_manager m s0).store
      = { st with devicesFile := some (.val (.mgrMap (wrapMgrs (eraseKey (setKey dict m.name m) "NEST")))) } := by
    rw [hadd]
  have hres : (add_manager m s0).res = .ok () := by
    rw [hadd]
  have hM : hasKey (migrate (wrapMgrs (eraseKey (setKey dict m.name m) "NEST"))) m.name = true := by
    rw [migrate_wrapMgrs, hasKey_eraseKey_ne _ h2, hasKey_eraseKey_ne _ h3]
    exact hA
  have hne : (migrate (wrapMgrs (eraseKey (setKey dict m.name m) "NEST"))).isEmpty = false :=
    isEmpty_false_of_hasKey hM
  have hu' : urlsOk ({ st with devicesFile := some (.val (.mgrMap (wrapMgrs (eraseKey (setKey dict m.name m) "NEST")))) }) = true := by
    rw [urlsOk_update_devices]
    exact hust
  have hm' := managers_eq_map hu' rfl hne
  have hb' : base_url_val ({ st with devicesFile := some (.val (.mgrMap (wrapMgrs (eraseKey (setKey dict m.name m) "NEST")))) }) = base_url_val s0 := by
    rw [base_url_val_update_devices]
    exact hbst
  rw [hb'] at hm'
  refine ⟨hres, ?_, ?_⟩
  · refine ⟨("NEST", ⟨"NEST", (base_url_val s0).NEST⟩)
        :: migrate (wrapMgrs (eraseKey (setKey dict m.name m) "NEST")), ?_, ?_, ?_⟩
    · rw [hst, hm']
    · have hhead : ("NEST" : String) ≠ m.name := Ne.symm h2
      simp only [lookupKey, if_neg hhead]
      rw [migrate_wrapMgrs, lookupKey_eraseKey_ne _ h2, lookupKey_eraseKey_ne _ h3,
        lookupKey_eraseKey_ne _ h2, lookupKey_setKey_self]
    · simp [lookupKey]
  · refine ⟨wrapMgrs (eraseKey (setKey dict m.name m) "NEST"), ?_, ?_, ?_⟩
    · rw [hst]
    · rw [hasKey_wrapMgrs]
      exact hA
    · rw [hasKey_wrapMgrs]
      exact hB

/-- Claim C8 counterexample: adding `DeviceManager("NEST", "http://x")`
does not behave as claimed — the inserted entry is immediately stripped
by the `pop("NEST")` before the write, so the managers view maps the name
`"NEST"` to the rederived synthetic entry (not to the added manager) and
the on-disk mapping does not contain the added name. -/
theorem claim_C8_counterexample :
    (add_manager ⟨"NEST", "http://x"⟩ { Store.init with devicesFile := some (.val (.mgrMap [("bar", .mgr ⟨"bar", "http://y"⟩)])) }).store.devicesFile
      = some (.val (.mgrMap [("bar", .mgr ⟨"bar", "http://y"⟩)])) ∧
    (managers (add_manager ⟨"NEST", "http://x"⟩ { Store.init with devicesFile := some (.val (.mgrMap [("bar", .mgr ⟨"bar", "http://y"⟩)])) }).store).res
      = .ok [("NEST", ⟨"NEST", BaseURLs.default.NEST⟩), ("bar", ⟨"bar", "http://y"⟩)] ∧
    (DeviceManager.mk "NEST" BaseURLs.default.NEST) ≠ ⟨"NEST", "http://x"⟩ := by
  refine ⟨rfl, rfl, by decide⟩

/-- Claim C8 (amended): for every `DeviceManager` whose name is neither
`"NEST"` nor `"DEFAULT"`, from any well-formed state, `add_manager`
succeeds, a subsequent `managers()` view maps the name to the added
manager and maps `"NEST"` to the rederived synthetic entry, and the
on-disk mapping contains the added name but not `"NEST"`. -/
theorem claim_C8_add_manager_view_and_disk (s : Store) (m : DeviceManager)
    (h1 : WF s = true) (h2 : m.name ≠ "NEST") (h3 : m.name ≠ "DEFAULT") :
    (add_manager m s).res = .ok () ∧
    (∃ d, (managers (add_manager m s).store).res = .ok d ∧
      lookupKey d m.name = some m ∧
      lookupKey d "NEST" = some ⟨"NEST", (base_url_val s).NEST⟩) ∧
    (∃ L, (add_manager m s).store.devicesFile = some (.val (.mgrMap L)) ∧
      hasKey L m.name = true ∧ hasKey L "NEST" = false) := by
  obtain ⟨hu, hcase⟩ := WF_cases h1
  rcases hcase with hdev | ⟨mm, hdev, hne⟩
  · exact add_manager_spec_aux s m (managers_eq_none hu hdev)
      (by simp [hasKey]) hu rfl h2 h3
  · exact add_manager_spec_aux s m (managers_eq_map hu hdev hne)
      (by simp [hasKey])
      (by rw [urlsOk_update_devices]; exact hu)
      (base_url_val_update_devices s _) h2 h3

/-- Witness for claim C8 (amended): adding `DeviceManager("foo","http://x")`
to the fresh store. -/
theorem claim_C8_witness :
    WF Store.init = true ∧
    (DeviceManager.mk "foo" "http://x").name ≠ "NEST" ∧
    (DeviceManager.mk "foo" "http://x").name ≠ "DEFAULT" ∧
    (add_manager ⟨"foo", "http://x"⟩ Store.init).res = .ok () :=
  ⟨rfl, by decide, by decide,
    (claim_C8_add_manager_view_and_disk Store.init ⟨"foo", "http://x"⟩ rfl
      (by decide) (by decide)).1⟩

end OwLite
